import Mathlib

/-!
Verification of `src/sandboxer/landlock_sandboxer.c` (SecBASH).

The C file is an LD_PRELOAD constructor `apply_sandbox` that
1. creates a Landlock ruleset handling EXECUTE access,
2. walks the colon-separated `PATH` environment value, adding an
   execute-allow rule for every regular, executable, resolvable,
   non-denied file found directly inside a PATH directory,
3. sets `PR_SET_NO_NEW_PRIVS`, and
4. commits the ruleset with `landlock_restrict_self`,
calling `_exit(126)` on every fatal condition.

The embedding is a pure function over a `World` record that supplies the
outcome of every environment interaction (syscall results, directory
listings, `stat` modes, `realpath` results).  The run produces a trace of
`Event`s, mirroring the observable actions of the C code in program
order, together with the terminal `Outcome` (process exit with a status,
or normal constructor return).
-/

namespace Sandboxer

/-- Constant `PATH_MAX` from `<limits.h>`, the size of the `fullpath` buffer. -/
def PATH_MAX : Nat := 4096

/-- The denylist compiled into the binary (`DENIED_SHELLS` in the C file,
without the terminating `NULL`). -/
def DENIED_SHELLS : List String :=
  [ "/bin/bash",      "/usr/bin/bash",
    "/bin/sh",        "/usr/bin/sh",
    "/bin/dash",      "/usr/bin/dash",
    "/bin/zsh",       "/usr/bin/zsh",
    "/bin/fish",      "/usr/bin/fish",
    "/bin/ksh",       "/usr/bin/ksh",
    "/bin/csh",       "/usr/bin/csh",
    "/bin/tcsh",      "/usr/bin/tcsh",
    "/bin/ash",       "/usr/bin/ash",
    "/bin/busybox",   "/usr/bin/busybox",
    "/bin/mksh",      "/usr/bin/mksh",
    "/bin/rbash",     "/usr/bin/rbash",
    "/bin/elvish",    "/usr/bin/elvish",
    "/bin/nu",        "/usr/bin/nu",
    "/bin/pwsh",      "/usr/bin/pwsh",
    "/bin/xonsh",     "/usr/bin/xonsh" ]

/-- Function `is_denied(path, resolved)` from the C file: walks `DENIED_SHELLS`
and returns 1 iff `strcmp(path, *s) == 0 || strcmp(resolved, *s) == 0`
for some entry. -/
def is_denied (path resolved : String) : Bool :=
  DENIED_SHELLS.any (fun s => path == s || resolved == s)

/-- Mask `S_IFMT`, the file-type mask from `<sys/stat.h>` (octal `0170000`). -/
def S_IFMT : Nat := 0o170000

/-- Value `S_IFREG`, the regular-file type from `<sys/stat.h>` (octal `0100000`). -/
def S_IFREG : Nat := 0o100000

/-- Test `S_ISREG(mode)`: the file-type bits of `st_mode` equal `S_IFREG`. -/
def S_ISREG (mode : Nat) : Bool := Nat.land mode S_IFMT == S_IFREG

/-- The test `st.st_mode & (S_IXUSR | S_IXGRP | S_IXOTH)` from the C
file: some execute bit (owner `0100`, group `0010`, other `0001`) set. -/
def anyExecBit (mode : Nat) : Bool := Nat.land mode 0o111 != 0

/-- Observable actions of `apply_sandbox`, in program order. -/
inductive Event where
  /-- Call of `landlock_create_ruleset`, with its success. -/
  | createRuleset (ok : Bool)
  /-- A one-line diagnostic was written to stderr (`perror`/`fprintf`);
  the string is the fixed prefix of the line. -/
  | diag (msg : String)
  /-- Call of `opendir(dir)` on a PATH component. -/
  | openDir (dir : String)
  /-- Call of `stat(fullpath, &st)` for a candidate. -/
  | statCall (path : String)
  /-- Call of `add_exec_rule(ruleset_fd, fullpath)`. -/
  | addRule (path : String)
  /-- Call of `prctl(PR_SET_NO_NEW_PRIVS, 1, 0, 0, 0)`. -/
  | prctlCall
  /-- Call of `landlock_restrict_self(ruleset_fd, 0)`. -/
  | restrictCall
  deriving DecidableEq, Repr

/-- Terminal state of one run of the constructor. -/
inductive Outcome where
  /-- Termination: `_exit(code)` was called. -/
  | exited (code : Nat)
  /-- The constructor returned normally (bash `main` proceeds). -/
  | returned
  deriving DecidableEq, Repr

/-- The environment a run interacts with: results of every syscall and
libc call the C code makes.  Directory listings are finite lists in
`readdir` order; `stat` yields `st_mode` on success; `realpath` yields
the canonical path on success. -/
structure World where
  /-- Whether `landlock_create_ruleset` succeeds (`ruleset_fd >= 0`). -/
  createRulesetOk : Bool
  /-- Value of `getenv("PATH")`. -/
  pathEnv : Option String
  /-- Whether `strdup(path_env)` succeeds. -/
  strdupOk : Bool
  /-- Result of `opendir(dir)`: `none` when it fails, otherwise the entries
  `readdir` yields, in order. -/
  opendir : String → Option (List String)
  /-- Result of `stat(path)`: `none` on failure, otherwise `st_mode`. -/
  statMode : String → Option Nat
  /-- Result of `realpath(path, resolved)`: `none` on failure. -/
  realpath : String → Option String
  /-- Whether `add_exec_rule` succeeds for this path (open + landlock_add_rule).
  The C caller discards this result. -/
  addRuleOk : String → Bool
  /-- Whether `prctl(PR_SET_NO_NEW_PRIVS, ...)` succeeds. -/
  prctlOk : Bool
  /-- Whether `landlock_restrict_self` succeeds. -/
  restrictOk : Bool

/-- Iteration of `strtok_r(path_copy, ":", &saveptr)`: the maximal nonempty
runs of non-colon characters, in order.  `acc` holds the characters of
the current token, reversed. -/
def tokenizeChars : List Char → List Char → List String
  | [], acc => if acc.isEmpty then [] else [String.mk acc.reverse]
  | c :: rest, acc =>
      if c = ':' then
        if acc.isEmpty then tokenizeChars rest []
        else String.mk acc.reverse :: tokenizeChars rest []
      else tokenizeChars rest (c :: acc)

/-- The sequence of `dir` values produced by the `strtok_r` loop over a
PATH string. -/
def tokenize (s : String) : List String := tokenizeChars s.data []

/-- The body of the `while ((ent = readdir(d)) != NULL)` loop for one
directory entry: build `fullpath` with `snprintf` and skip on
truncation, `stat` and skip non-regular or non-executable files,
`realpath` and skip on failure, skip denied paths, otherwise call
`add_exec_rule` (whose result is discarded). -/
def processEntry (w : World) (dir name : String) : List Event :=
  if PATH_MAX ≤ dir.length + 1 + name.length then []
  else
    Event.statCall (dir ++ "/" ++ name) ::
      (match w.statMode (dir ++ "/" ++ name) with
       | none => []
       | some mode =>
         if !(S_ISREG mode) then []
         else if !(anyExecBit mode) then []
         else match w.realpath (dir ++ "/" ++ name) with
           | none => []
           | some resolved =>
             if is_denied (dir ++ "/" ++ name) resolved then []
             else [Event.addRule (dir ++ "/" ++ name)])

/-- One iteration of the `strtok_r` loop: `opendir` the component, skip
it on failure (`continue`), otherwise process every entry in order. -/
def processDir (w : World) (dir : String) : List Event :=
  Event.openDir dir ::
    (match w.opendir dir with
     | none => []
     | some entries => entries.flatMap (processEntry w dir))

/-- Result of one run: the event trace and the terminal outcome. -/
structure RunResult where
  events : List Event
  outcome : Outcome

/-- The constructor `apply_sandbox` of the C file, step by step:
create the ruleset (fatal on failure, with `perror`), read and check
`PATH` (fatal when unset or empty, with `fprintf`), `strdup` it (fatal
on failure, no diagnostic), enumerate, then `prctl` and
`landlock_restrict_self` (each fatal on failure, with `perror`). -/
def apply_sandbox (w : World) : RunResult :=
  if !w.createRulesetOk then
    { events := [Event.createRuleset false,
                 Event.diag "landlock_sandboxer: create_ruleset"],
      outcome := Outcome.exited 126 }
  else
    match w.pathEnv with
    | none =>
      { events := [Event.createRuleset true,
                   Event.diag "landlock_sandboxer: PATH is empty"],
        outcome := Outcome.exited 126 }
    | some pathEnv =>
      if pathEnv.isEmpty then
        { events := [Event.createRuleset true,
                     Event.diag "landlock_sandboxer: PATH is empty"],
          outcome := Outcome.exited 126 }
      else if !w.strdupOk then
        { events := [Event.createRuleset true], outcome := Outcome.exited 126 }
      else
        let enumEvents := (tokenize pathEnv).flatMap (processDir w)
        if !w.prctlOk then
          { events := Event.createRuleset true :: enumEvents ++
              [Event.prctlCall,
               Event.diag "landlock_sandboxer: prctl(NO_NEW_PRIVS)"],
            outcome := Outcome.exited 126 }
        else if !w.restrictOk then
          { events := Event.createRuleset true :: enumEvents ++
              [Event.prctlCall, Event.restrictCall,
               Event.diag "landlock_sandboxer: restrict_self"],
            outcome := Outcome.exited 126 }
        else
          { events := Event.createRuleset true :: enumEvents ++
              [Event.prctlCall, Event.restrictCall],
            outcome := Outcome.returned }

/-- Modelled from the spec: the kernel-held ruleset accumulates
execute-allow entries, each naming one file; the set of entries is
monotonically non-decreasing, and adding an entry that is already
present leaves the allowed set unchanged (rule addition is idempotent at
the kernel layer).  The kernel side of `landlock_add_rule` is not part
of this repository's sources, so the allowed set is modelled as a
duplicate-free accumulation of paths. -/
def rulesetAdd (s : List String) (p : String) : List String :=
  if p ∈ s then s else s ++ [p]

/-- A world in which every PATH lookup succeeds for the single
candidate `/u/tool` (regular, mode `0755`, resolving to itself). -/
def wExample : World :=
  { createRulesetOk := true, pathEnv := some "/u", strdupOk := true,
    opendir := fun d => if d = "/u" then some ["tool"] else none,
    statMode := fun p => if p = "/u/tool" then some 0o100755 else none,
    realpath := fun p => if p = "/u/tool" then some "/u/tool" else none,
    addRuleOk := fun _ => true, prctlOk := true, restrictOk := true }

/-- A world with `PATH` unset; filesystem lookups never succeed. -/
def wNoPath : World :=
  { createRulesetOk := true, pathEnv := none, strdupOk := true,
    opendir := fun _ => none, statMode := fun _ => none,
    realpath := fun _ => none, addRuleOk := fun _ => false,
    prctlOk := true, restrictOk := true }

/-- A world where every directory open, stat, resolution and rule
addition fails, with two PATH components. -/
def wAllFail : World :=
  { createRulesetOk := true, pathEnv := some "/a:/b", strdupOk := true,
    opendir := fun _ => none, statMode := fun _ => none,
    realpath := fun _ => none, addRuleOk := fun _ => false,
    prctlOk := true, restrictOk := true }

/-- A world where `strdup` fails (allocation failure). -/
def wNoMem : World :=
  { createRulesetOk := true, pathEnv := some "/u", strdupOk := false,
    opendir := fun _ => none, statMode := fun _ => none,
    realpath := fun _ => none, addRuleOk := fun _ => false,
    prctlOk := true, restrictOk := true }

/-- A world where `landlock_restrict_self` fails. -/
def wNoRestrict : World :=
  { createRulesetOk := true, pathEnv := some "/u", strdupOk := true,
    opendir := fun _ => none, statMode := fun _ => none,
    realpath := fun _ => none, addRuleOk := fun _ => false,
    prctlOk := true, restrictOk := false }

/-- A world where `landlock_create_ruleset` fails. -/
def wNoLandlock : World :=
  { createRulesetOk := false, pathEnv := some "/u", strdupOk := true,
    opendir := fun d => if d = "/u" then some ["tool"] else none,
    statMode := fun p => if p = "/u/tool" then some 0o100755 else none,
    realpath := fun p => if p = "/u/tool" then some "/u/tool" else none,
    addRuleOk := fun _ => true, prctlOk := true, restrictOk := true }

/-- A world where everything succeeds but no directory has entries. -/
def wAllOk : World :=
  { createRulesetOk := true, pathEnv := some "/u", strdupOk := true,
    opendir := fun _ => some [], statMode := fun _ => none,
    realpath := fun _ => none, addRuleOk := fun _ => true,
    prctlOk := true, restrictOk := true }

/-- A directory name of `PATH_MAX - 1` characters, so that appending
`/` and any entry name overflows the `fullpath` buffer. -/
def dirLong : String := String.mk (List.replicate (PATH_MAX - 1) 'a')

/-- A world whose single PATH component is the oversize directory
`dirLong`, containing one entry that would fit no buffer. -/
def wOversize : World :=
  { createRulesetOk := true, pathEnv := some dirLong, strdupOk := true,
    opendir := fun d => if d = dirLong then some ["b"] else none,
    statMode := fun _ => some 0o100755,
    realpath := fun p => some p, addRuleOk := fun _ => true,
    prctlOk := true, restrictOk := true }

/-! ### Trace-membership lemmas -/

/-- A `statCall` event of `processEntry` names exactly the combined
path, and only when it fits the buffer. -/
theorem mem_processEntry_statCall {w : World} {dir name p : String}
    (h : Event.statCall p ∈ processEntry w dir name) :
    p = dir ++ "/" ++ name ∧ dir.length + 1 + name.length < PATH_MAX := by
  unfold processEntry at h
  split at h
  · simp at h
  · next hlen =>
    refine ⟨?_, by omega⟩
    simp only [List.mem_cons] at h
    rcases h with h | h
    · exact (Event.statCall.injEq _ _ ▸ h).symm ▸ rfl
    · exfalso
      split at h
      · simp at h
      · split at h
        · simp at h
        · split at h
          · simp at h
          · split at h
            · simp at h
            · split at h
              · simp at h
              · simp at h

/-- An `addRule` event of `processEntry` implies the whole chain of
guards passed: the path fits, `stat` succeeded on a regular file with
an execute bit, `realpath` succeeded, and the path is not denied. -/
theorem mem_processEntry_addRule {w : World} {dir name p : String}
    (h : Event.addRule p ∈ processEntry w dir name) :
    p = dir ++ "/" ++ name ∧ dir.length + 1 + name.length < PATH_MAX ∧
    ∃ mode, w.statMode p = some mode ∧ S_ISREG mode = true ∧
      anyExecBit mode = true ∧
      ∃ resolved, w.realpath p = some resolved ∧
        is_denied p resolved = false := by
  unfold processEntry at h
  split at h
  · simp at h
  · next hlen =>
    simp only [List.mem_cons] at h
    rcases h with h | h
    · simp at h
    · split at h
      · simp at h
      · next mode hmode =>
        split at h
        · simp at h
        · next hreg =>
          split at h
          · simp at h
          · next hexe =>
            split at h
            · simp at h
            · next resolved hres =>
              split at h
              · simp at h
              · next hden =>
                simp only [List.mem_singleton, Event.addRule.injEq] at h
                subst h
                refine ⟨rfl, by omega, mode, hmode, ?_, ?_, resolved, hres, ?_⟩
                · simpa using hreg
                · simpa using hexe
                · simpa using hden

/-- No `openDir` event arises inside `processEntry`. -/
theorem not_mem_processEntry_openDir {w : World} {dir name d : String} :
    Event.openDir d ∉ processEntry w dir name := by
  intro h
  unfold processEntry at h
  split at h
  · simp at h
  · simp only [List.mem_cons] at h
    rcases h with h | h
    · simp at h
    · split at h
      · simp at h
      · split at h
        · simp at h
        · split at h
          · simp at h
          · split at h
            · simp at h
            · split at h
              · simp at h
              · simp at h

/-- Events of `processDir` are the `openDir` probe for that directory
plus events of `processEntry` on one of its entries. -/
theorem mem_processDir {w : World} {dir : String} {e : Event}
    (h : e ∈ processDir w dir) :
    e = Event.openDir dir ∨
    ∃ entries, w.opendir dir = some entries ∧
      ∃ name ∈ entries, e ∈ processEntry w dir name := by
  unfold processDir at h
  simp only [List.mem_cons] at h
  rcases h with h | h
  · exact Or.inl h
  · right
    split at h
    · simp at h
    · next entries heq =>
      rcases List.mem_flatMap.mp h with ⟨name, hn, he⟩
      exact ⟨entries, heq, name, hn, he⟩

/-- Any event of `apply_sandbox` that is not one of the fixed pipeline
events (`createRuleset`, `diag`, `prctlCall`, `restrictCall`) arises
from enumeration: `PATH` was present and nonempty, `strdup` succeeded,
and the event lies in `processDir` of some tokenized component. -/
theorem mem_events_enum {w : World} {e : Event}
    (he : e ∈ (apply_sandbox w).events)
    (h1 : ∀ b, e ≠ Event.createRuleset b)
    (h2 : ∀ m, e ≠ Event.diag m)
    (h3 : e ≠ Event.prctlCall) (h4 : e ≠ Event.restrictCall) :
    w.createRulesetOk = true ∧ w.strdupOk = true ∧
    ∃ pe, w.pathEnv = some pe ∧ pe.isEmpty = false ∧
      ∃ dir ∈ tokenize pe, e ∈ processDir w dir := by
  unfold apply_sandbox at he
  split at he
  · simp only [List.mem_cons, List.mem_singleton] at he
    rcases he with he | he | he
    · exact absurd he (h1 false)
    · exact absurd he (h2 _)
    · simp at he
  · next hcr =>
    have hcr' : w.createRulesetOk = true := by
      simpa using hcr
    split at he
    · simp only [List.mem_cons, List.mem_singleton] at he
      rcases he with he | he | he
      · exact absurd he (h1 true)
      · exact absurd he (h2 _)
      · simp at he
    · next pe hpe =>
      split at he
      · simp only [List.mem_cons, List.mem_singleton] at he
        rcases he with he | he | he
        · exact absurd he (h1 true)
        · exact absurd he (h2 _)
        · simp at he
      · next hne =>
        have hne' : pe.isEmpty = false := by simpa using hne
        split at he
        · next hsd =>
          simp only [List.mem_singleton] at he
          exact absurd he (h1 true)
        · next hsd =>
          have hsd' : w.strdupOk = true := by simpa using hsd
          refine ⟨hcr', hsd', pe, hpe, hne', ?_⟩
          have hmem : e ∈ (tokenize pe).flatMap (processDir w) := by
            split at he
            · simp only [List.mem_cons, List.mem_append,
                List.mem_singleton, List.not_mem_nil, or_false] at he
              rcases he with (he | he) | he | he
              · exact absurd he (h1 true)
              · exact he
              · exact absurd he h3
              · exact absurd he (h2 _)
            · split at he
              · simp only [List.mem_cons, List.mem_append,
                  List.mem_singleton, List.not_mem_nil, or_false] at he
                rcases he with (he | he) | he | he | he
                · exact absurd he (h1 true)
                · exact he
                · exact absurd he h3
                · exact absurd he h4
                · exact absurd he (h2 _)
              · simp only [List.mem_cons, List.mem_append,
                  List.mem_singleton, List.not_mem_nil, or_false] at he
                rcases he with (he | he) | he | he
                · exact absurd he (h1 true)
                · exact he
                · exact absurd he h3
                · exact absurd he h4
          rcases List.mem_flatMap.mp hmem with ⟨dir, hd, hde⟩
          exact ⟨dir, hd, hde⟩

/-- The `openDir` probe is always in the trace of its directory. -/
theorem openDir_mem_processDir (w : World) (dir : String) :
    Event.openDir dir ∈ processDir w dir := by
  unfold processDir
  exact List.mem_cons_self _ _

/-- Events of `processEntry` are only `statCall` and `addRule` events. -/
theorem mem_processEntry_cases {w : World} {dir name : String} {e : Event}
    (h : e ∈ processEntry w dir name) :
    (∃ p, e = Event.statCall p) ∨ ∃ p, e = Event.addRule p := by
  unfold processEntry at h
  split at h
  · simp at h
  · simp only [List.mem_cons] at h
    rcases h with h | h
    · exact Or.inl ⟨_, h⟩
    · split at h
      · simp at h
      · split at h
        · simp at h
        · split at h
          · simp at h
          · split at h
            · simp at h
            · split at h
              · simp at h
              · simp only [List.mem_singleton] at h
                exact Or.inr ⟨_, h⟩

/-- Events of `processDir` are only `openDir`, `statCall` and `addRule`
events. -/
theorem mem_processDir_cases {w : World} {dir : String} {e : Event}
    (h : e ∈ processDir w dir) :
    (∃ d, e = Event.openDir d) ∨ (∃ p, e = Event.statCall p) ∨
      ∃ p, e = Event.addRule p := by
  rcases mem_processDir h with heq | ⟨entries, heq, name, hn, hin⟩
  · exact Or.inl ⟨_, heq⟩
  · exact Or.inr (mem_processEntry_cases hin)

/-- When the run survives the fatal preconditions, its trace is the
`createRuleset` probe, the whole enumeration, `prctlCall`, and a
branch-dependent tail. -/
theorem events_shape_enum {w : World} {pe : String}
    (hc : w.createRulesetOk = true) (hp : w.pathEnv = some pe)
    (hne : pe.isEmpty = false) (hs : w.strdupOk = true) :
    ∃ tail, (apply_sandbox w).events =
      Event.createRuleset true ::
        ((tokenize pe).flatMap (processDir w) ++ Event.prctlCall :: tail) := by
  unfold apply_sandbox
  rw [hp]
  simp only [hc, hs, hne, Bool.not_true, Bool.false_eq_true, if_false]
  split
  · exact ⟨[Event.diag "landlock_sandboxer: prctl(NO_NEW_PRIVS)"], rfl⟩
  · split
    · exact ⟨[Event.restrictCall,
        Event.diag "landlock_sandboxer: restrict_self"], rfl⟩
    · exact ⟨[Event.restrictCall], rfl⟩

/-- The path just added is in the allowed set. -/
theorem mem_rulesetAdd_self (s : List String) (p : String) :
    p ∈ rulesetAdd s p := by
  unfold rulesetAdd
  split
  · assumption
  · simp

/-- Monotonicity: `rulesetAdd` never removes entries. -/
theorem mem_rulesetAdd_mono {s : List String} {q : String} (h : q ∈ s)
    (p : String) : q ∈ rulesetAdd s p := by
  unfold rulesetAdd
  split
  · exact h
  · exact List.mem_append_left _ h

/-- Adding a path already in the allowed set changes nothing. -/
theorem rulesetAdd_mem_eq {s : List String} {p : String} (h : p ∈ s) :
    rulesetAdd s p = s := by
  unfold rulesetAdd
  rw [if_pos h]

/-- Entries of the allowed set survive any further additions. -/
theorem mem_foldl_rulesetAdd {p : String} :
    ∀ (l s : List String), p ∈ s → p ∈ List.foldl rulesetAdd s l
  | [], _, h => h
  | q :: l, _, h => mem_foldl_rulesetAdd l _ (mem_rulesetAdd_mono h q)

/-- Every token produced by the `strtok_r` model is a nonempty string. -/
theorem tokenizeChars_tokens_ne_nil :
    ∀ (l acc : List Char) (t : String),
      t ∈ tokenizeChars l acc → t.data ≠ [] := by
  intro l
  induction l with
  | nil =>
    intro acc t h
    unfold tokenizeChars at h
    split at h
    · simp at h
    · next hacc =>
      simp only [List.mem_singleton] at h
      subst h
      intro hd
      have : acc = [] := by
        have := List.reverse_eq_nil_iff.mp hd
        exact this
      subst this
      exact hacc (by simp)
  | cons c rest ih =>
    intro acc t h
    unfold tokenizeChars at h
    split at h
    · split at h
      · exact ih [] t h
      · next hacc =>
        simp only [List.mem_cons] at h
        rcases h with rfl | h
        · intro hd
          have : acc = [] := List.reverse_eq_nil_iff.mp hd
          subst this
          exact hacc (by simp)
        · exact ih [] t h
    · exact ih (c :: acc) t h

/-- No token of `tokenize` is the empty string. -/
theorem tokenize_tokens_ne_empty {s t : String} (h : t ∈ tokenize s) :
    t ≠ "" := by
  intro he
  subst he
  exact tokenizeChars_tokens_ne_nil s.data [] "" h rfl

/-! ### Claim theorems -/

/-- Claim C1: for every PATH environment value and every filesystem
state, every path for which the pipeline attempts to add an
execute-allow rule is a direct entry of one of the tokenized PATH
directories whose `stat` succeeded and reported a regular file with at
least one execute bit, whose canonicalization succeeded, and which
`is_denied` does not classify as denied.  No rule is ever attempted for
a non-regular file, a file with no execute bit, a file whose
canonicalization fails, or a denied path. -/
theorem attempted_rules_are_safe (w : World) (p : String)
    (h : Event.addRule p ∈ (apply_sandbox w).events) :
    ∃ pe dir entries name,
      w.pathEnv = some pe ∧ dir ∈ tokenize pe ∧
      w.opendir dir = some entries ∧ name ∈ entries ∧
      p = dir ++ "/" ++ name ∧
      ∃ mode, w.statMode p = some mode ∧ S_ISREG mode = true ∧
        anyExecBit mode = true ∧
        ∃ resolved, w.realpath p = some resolved ∧
          is_denied p resolved = false := by
  obtain ⟨-, -, pe, hpe, -, dir, hdir, hd⟩ :=
    mem_events_enum h (fun b hb => Event.noConfusion hb)
      (fun m hm => Event.noConfusion hm)
      (fun hp => Event.noConfusion hp) (fun hr => Event.noConfusion hr)
  rcases mem_processDir hd with heq | ⟨entries, hent, name, hn, hin⟩
  · exact Event.noConfusion heq
  · obtain ⟨hp, hlen, mode, hmode, hreg, hexe, resolved, hres, hden⟩ :=
      mem_processEntry_addRule hin
    exact ⟨pe, dir, entries, name, hpe, hdir, hent, hn, hp,
      mode, hmode, hreg, hexe, resolved, hres, hden⟩

/-- Witness for C1 at a concrete world: the rule attempt for
`/u/tool` satisfies every guard of the chain. -/
theorem attempted_rules_are_safe_witness :
    Event.addRule "/u/tool" ∈ (apply_sandbox wExample).events ∧
    (∃ pe dir entries name,
      wExample.pathEnv = some pe ∧ dir ∈ tokenize pe ∧
      wExample.opendir dir = some entries ∧ name ∈ entries ∧
      "/u/tool" = dir ++ "/" ++ name ∧
      ∃ mode, wExample.statMode "/u/tool" = some mode ∧
        S_ISREG mode = true ∧ anyExecBit mode = true ∧
        ∃ resolved, wExample.realpath "/u/tool" = some resolved ∧
          is_denied "/u/tool" resolved = false) :=
  ⟨by decide, attempted_rules_are_safe wExample "/u/tool" (by decide)⟩

/-- Claim C2: `is_denied` returns true iff the literal path or the
resolved path is exactly (case-sensitively) string-equal to some entry
of `DENIED_SHELLS`; in particular it is true whenever either argument
is an entry of the Denial Set, and false when neither is. -/
theorem is_denied_iff_mem : ∀ p r : String,
    is_denied p r = true ↔ p ∈ DENIED_SHELLS ∨ r ∈ DENIED_SHELLS := by
  intro p r
  simp only [is_denied, List.any_eq_true, Bool.or_eq_true, beq_iff_eq]
  constructor
  · rintro ⟨s, hs, rfl | rfl⟩
    · exact Or.inl hs
    · exact Or.inr hs
  · rintro (hp | hr)
    · exact ⟨p, hp, Or.inl rfl⟩
    · exact ⟨r, hr, Or.inr rfl⟩

/-- Claim C3: when `PATH` is unset or empty, the run exits with status
126 without opening any directory, without any `stat`, and without
attempting any rule addition. -/
theorem empty_path_fatal (w : World)
    (h : w.pathEnv = none ∨ w.pathEnv = some "") :
    (apply_sandbox w).outcome = Outcome.exited 126 ∧
    (∀ d, Event.openDir d ∉ (apply_sandbox w).events) ∧
    (∀ p, Event.statCall p ∉ (apply_sandbox w).events) ∧
    (∀ p, Event.addRule p ∉ (apply_sandbox w).events) := by
  unfold apply_sandbox
  rcases h with h | h <;> rw [h] <;>
    cases hc : w.createRulesetOk <;>
      simp [show String.isEmpty "" = true from rfl]

/-- Witness for C3: the concrete world with `PATH` unset. -/
theorem empty_path_fatal_witness :
    (apply_sandbox wNoPath).outcome = Outcome.exited 126 ∧
    Event.openDir "/u" ∉ (apply_sandbox wNoPath).events ∧
    Event.addRule "/u/tool" ∉ (apply_sandbox wNoPath).events :=
  ⟨(empty_path_fatal wNoPath (Or.inl rfl)).1,
   (empty_path_fatal wNoPath (Or.inl rfl)).2.1 "/u",
   (empty_path_fatal wNoPath (Or.inl rfl)).2.2.2 "/u/tool"⟩

/-- Claim C4: no per-directory or per-candidate failure is fatal.  For
any behavior of `opendir`, `stat`, `realpath` and `add_exec_rule`, the
run reaches the activation step (`prctl`), and every tokenized PATH
directory is still probed with `opendir`. -/
theorem per_item_failures_not_fatal (w : World) (pe : String)
    (hc : w.createRulesetOk = true) (hp : w.pathEnv = some pe)
    (hne : pe.isEmpty = false) (hs : w.strdupOk = true) :
    Event.prctlCall ∈ (apply_sandbox w).events ∧
    ∀ dir ∈ tokenize pe, Event.openDir dir ∈ (apply_sandbox w).events := by
  obtain ⟨tail, htail⟩ := events_shape_enum hc hp hne hs
  rw [htail]
  constructor
  · exact List.mem_cons_of_mem _
      (List.mem_append_right _ (List.mem_cons_self _ _))
  · intro dir hdir
    exact List.mem_cons_of_mem _ (List.mem_append_left _
      (List.mem_flatMap.mpr ⟨dir, hdir, openDir_mem_processDir w dir⟩))

/-- Witness for C4: in a world where every `opendir`, `stat`,
`realpath` and rule addition fails, activation is still reached and
both PATH components are probed. -/
theorem per_item_failures_not_fatal_witness :
    Event.prctlCall ∈ (apply_sandbox wAllFail).events ∧
    Event.openDir "/a" ∈ (apply_sandbox wAllFail).events ∧
    Event.openDir "/b" ∈ (apply_sandbox wAllFail).events :=
  ⟨(per_item_failures_not_fatal wAllFail "/a:/b" rfl rfl rfl rfl).1,
   (per_item_failures_not_fatal wAllFail "/a:/b" rfl rfl rfl rfl).2 "/a"
     (by decide),
   (per_item_failures_not_fatal wAllFail "/a:/b" rfl rfl rfl rfl).2 "/b"
     (by decide)⟩

/-- Counterexample to C5 as stated: when `strdup` fails (allocation
failure), the process exits with the reserved status without writing
any diagnostic line. -/
theorem fatal_without_diagnostic_cex :
    (apply_sandbox wNoMem).outcome = Outcome.exited 126 ∧
    ∀ m, Event.diag m ∉ (apply_sandbox wNoMem).events := by
  have he : (apply_sandbox wNoMem).events = [Event.createRuleset true] := rfl
  refine ⟨rfl, ?_⟩
  intro m h
  rw [he] at h
  simp at h

/-- Claim C5 (amended): every fatal condition terminates the process
with the single reserved status 126 and is never continued past; every
fatal condition other than allocation failure writes a one-line
diagnostic to the error stream first, while allocation failure
terminates with the reserved status but without a diagnostic. -/
theorem fatal_exits_uniform (w : World) :
    (∀ c, (apply_sandbox w).outcome = Outcome.exited c → c = 126) ∧
    ((apply_sandbox w).outcome = Outcome.returned →
      w.createRulesetOk = true ∧ w.strdupOk = true ∧ w.prctlOk = true ∧
      w.restrictOk = true ∧
      ∃ pe, w.pathEnv = some pe ∧ pe.isEmpty = false) ∧
    ((apply_sandbox w).outcome = Outcome.exited 126 →
      (∃ m, Event.diag m ∈ (apply_sandbox w).events) ∨
      (w.createRulesetOk = true ∧ w.strdupOk = false ∧
       ∃ pe, w.pathEnv = some pe ∧ pe.isEmpty = false)) := by
  unfold apply_sandbox
  split
  · refine ⟨?_, ?_, ?_⟩
    · intro c h
      simp only [Outcome.exited.injEq] at h
      omega
    · intro h
      simp at h
    · intro _
      exact Or.inl ⟨"landlock_sandboxer: create_ruleset", by simp⟩
  · next hcr =>
    split
    · refine ⟨?_, ?_, ?_⟩
      · intro c h
        simp only [Outcome.exited.injEq] at h
        omega
      · intro h
        simp at h
      · intro _
        exact Or.inl ⟨"landlock_sandboxer: PATH is empty", by simp⟩
    · next pe hpe =>
      split
      · refine ⟨?_, ?_, ?_⟩
        · intro c h
          simp only [Outcome.exited.injEq] at h
          omega
        · intro h
          simp at h
        · intro _
          exact Or.inl ⟨"landlock_sandboxer: PATH is empty", by simp⟩
      · next hne =>
        split
        · next hsd =>
          refine ⟨?_, ?_, ?_⟩
          · intro c h
            simp only [Outcome.exited.injEq] at h
            omega
          · intro h
            simp at h
          · intro _
            exact Or.inr ⟨by simpa using hcr, by simpa using hsd,
              pe, hpe, by simpa using hne⟩
        · next hsd =>
          split
          · refine ⟨?_, ?_, ?_⟩
            · intro c h
              simp only [Outcome.exited.injEq] at h
              omega
            · intro h
              simp at h
            · intro _
              exact Or.inl
                ⟨"landlock_sandboxer: prctl(NO_NEW_PRIVS)", by simp⟩
          · split
            · refine ⟨?_, ?_, ?_⟩
              · intro c h
                simp only [Outcome.exited.injEq] at h
                omega
              · intro h
                simp at h
              · intro _
                exact Or.inl
                  ⟨"landlock_sandboxer: restrict_self", by simp⟩
            · next hpr hrs =>
              refine ⟨?_, ?_, ?_⟩
              · intro c h
                simp at h
              · intro _
                exact ⟨by simpa using hcr, by simpa using hsd,
                  by simpa using hpr, by simpa using hrs,
                  pe, hpe, by simpa using hne⟩
              · intro h
                simp at h

/-- Witness for C5 (amended): in the world where activation fails, the
run writes a diagnostic; the reserved status is observed concretely. -/
theorem fatal_exits_uniform_witness :
    (apply_sandbox wNoRestrict).outcome = Outcome.exited 126 ∧
    ((∃ m, Event.diag m ∈ (apply_sandbox wNoRestrict).events) ∨
     (wNoRestrict.createRulesetOk = true ∧ wNoRestrict.strdupOk = false ∧
      ∃ pe, wNoRestrict.pathEnv = some pe ∧ pe.isEmpty = false)) :=
  ⟨by decide, (fatal_exits_uniform wNoRestrict).2.2 (by decide)⟩

/-- Claim C6: when ruleset creation fails, the run exits with the
reserved status 126 having attempted no rule addition and no
enumeration step (no `opendir`, no `stat`). -/
theorem create_ruleset_failure_fatal (w : World)
    (h : w.createRulesetOk = false) :
    (apply_sandbox w).outcome = Outcome.exited 126 ∧
    (∀ p, Event.addRule p ∉ (apply_sandbox w).events) ∧
    (∀ d, Event.openDir d ∉ (apply_sandbox w).events) ∧
    (∀ p, Event.statCall p ∉ (apply_sandbox w).events) := by
  unfold apply_sandbox
  rw [h]
  simp

/-- Witness for C6: the concrete world where Landlock is unsupported,
with a populated PATH directory that is consequently never touched. -/
theorem create_ruleset_failure_fatal_witness :
    (apply_sandbox wNoLandlock).outcome = Outcome.exited 126 ∧
    Event.addRule "/u/tool" ∉ (apply_sandbox wNoLandlock).events ∧
    Event.openDir "/u" ∉ (apply_sandbox wNoLandlock).events :=
  ⟨(create_ruleset_failure_fatal wNoLandlock rfl).1,
   (create_ruleset_failure_fatal wNoLandlock rfl).2.1 "/u/tool",
   (create_ruleset_failure_fatal wNoLandlock rfl).2.2.1 "/u"⟩

/-- Claim C7: the privilege lock (`prctl`) is invoked before the
ruleset commit (`landlock_restrict_self`) on every run that attempts
the commit, the commit is only attempted when the lock succeeded, and
the constructor returns normally only when both the lock and the
commit succeeded. -/
theorem activation_ordering (w : World) :
    (Event.restrictCall ∈ (apply_sandbox w).events →
      w.prctlOk = true ∧
      ∃ l1 l2, (apply_sandbox w).events =
        l1 ++ Event.prctlCall :: Event.restrictCall :: l2) ∧
    ((apply_sandbox w).outcome = Outcome.returned →
      w.prctlOk = true ∧ w.restrictOk = true ∧
      Event.restrictCall ∈ (apply_sandbox w).events) := by
  unfold apply_sandbox
  split
  · refine ⟨?_, ?_⟩
    · intro h
      simp at h
    · intro h
      simp at h
  · split
    · refine ⟨?_, ?_⟩
      · intro h
        simp at h
      · intro h
        simp at h
    · next pe hpe =>
      split
      · refine ⟨?_, ?_⟩
        · intro h
          simp at h
        · intro h
          simp at h
      · split
        · refine ⟨?_, ?_⟩
          · intro h
            simp at h
          · intro h
            simp at h
        · split
          · refine ⟨?_, ?_⟩
            · intro h
              simp at h
              rcases h with ⟨dir, -, hd⟩
              rcases mem_processDir_cases hd with
                ⟨d, hh⟩ | ⟨p, hh⟩ | ⟨p, hh⟩ <;> exact Event.noConfusion hh
            · intro h
              simp at h
          · next hpr =>
            split
            · refine ⟨?_, ?_⟩
              · intro h
                refine ⟨by simpa using hpr,
                  Event.createRuleset true ::
                    (tokenize pe).flatMap (processDir w),
                  [Event.diag "landlock_sandboxer: restrict_self"], ?_⟩
                simp
              · intro h
                simp at h
            · next hrs =>
              refine ⟨?_, ?_⟩
              · intro h
                refine ⟨by simpa using hpr,
                  Event.createRuleset true ::
                    (tokenize pe).flatMap (processDir w), [], ?_⟩
                simp
              · intro _
                exact ⟨by simpa using hpr, by simpa using hrs, by simp⟩

/-- Witness for C7: in the all-success world the constructor returns,
the lock and commit both succeeded, and the commit appears in the
trace. -/
theorem activation_ordering_witness :
    wAllOk.prctlOk = true ∧ wAllOk.restrictOk = true ∧
    Event.restrictCall ∈ (apply_sandbox wAllOk).events :=
  (activation_ordering wAllOk).2 (by decide)

/-- Claim C8: adding the same allow-rule twice yields exactly the same
allowed set as adding it once, both for a single repeated addition and
for a duplicate candidate processed independently later in the
enumeration. -/
theorem add_rule_idempotent :
    (∀ (s : List String) (p : String),
      rulesetAdd (rulesetAdd s p) p = rulesetAdd s p) ∧
    (∀ (pre mid : List String) (p : String),
      List.foldl rulesetAdd [] (pre ++ p :: (mid ++ [p])) =
      List.foldl rulesetAdd [] (pre ++ p :: mid)) := by
  constructor
  · intro s p
    exact rulesetAdd_mem_eq (mem_rulesetAdd_self s p)
  · intro pre mid p
    simp only [List.foldl_append, List.foldl_cons, List.foldl_nil]
    exact rulesetAdd_mem_eq
      (mem_foldl_rulesetAdd mid _ (mem_rulesetAdd_self _ p))

/-- Claim C9: a directory entry whose combined path would not fit the
`PATH_MAX` buffer is skipped before any `stat`, denylist check or rule
addition (its processing emits no event at all), and every candidate
that is processed has a full, untruncated literal path shorter than
`PATH_MAX`. -/
theorem oversize_candidate_skipped (w : World) (dir name : String)
    (h : PATH_MAX ≤ dir.length + 1 + name.length) :
    processEntry w dir name = [] ∧
    (∀ p, Event.statCall p ∈ (apply_sandbox w).events →
      p.length < PATH_MAX) ∧
    (∀ p, Event.addRule p ∈ (apply_sandbox w).events →
      p.length < PATH_MAX) := by
  have hslash : String.length "/" = 1 := rfl
  refine ⟨?_, ?_, ?_⟩
  · unfold processEntry
    rw [if_pos h]
  · intro p hp
    obtain ⟨-, -, pe, -, -, dir', hd', hin⟩ :=
      mem_events_enum hp (fun b hb => Event.noConfusion hb)
        (fun m hm => Event.noConfusion hm)
        (fun hh => Event.noConfusion hh) (fun hh => Event.noConfusion hh)
    rcases mem_processDir hin with heq | ⟨entries, hent, name', hn, hpe⟩
    · exact Event.noConfusion heq
    · obtain ⟨hpath, hlen⟩ := mem_processEntry_statCall hpe
      rw [hpath, String.length_append, String.length_append, hslash]
      exact hlen
  · intro p hp
    obtain ⟨-, -, pe, -, -, dir', hd', hin⟩ :=
      mem_events_enum hp (fun b hb => Event.noConfusion hb)
        (fun m hm => Event.noConfusion hm)
        (fun hh => Event.noConfusion hh) (fun hh => Event.noConfusion hh)
    rcases mem_processDir hin with heq | ⟨entries, hent, name', hn, hpe⟩
    · exact Event.noConfusion heq
    · obtain ⟨hpath, hlen, -⟩ := mem_processEntry_addRule hpe
      rw [hpath, String.length_append, String.length_append, hslash]
      exact hlen

/-- Witness for C9: the `PATH_MAX - 1`-character directory with a
one-character entry overflows the buffer and its processing emits
nothing. -/
theorem oversize_candidate_skipped_witness :
    PATH_MAX ≤ dirLong.length + 1 + String.length "b" ∧
    processEntry wOversize dirLong "b" = [] := by
  have hdl : dirLong.length = PATH_MAX - 1 := by
    show (List.replicate (PATH_MAX - 1) 'a').length = PATH_MAX - 1
    simp
  have hb : String.length "b" = 1 := rfl
  have hle : PATH_MAX ≤ dirLong.length + 1 + String.length "b" := by
    rw [hdl, hb]
    unfold PATH_MAX
    omega
  exact ⟨hle, (oversize_candidate_skipped wOversize dirLong "b" hle).1⟩

/-- Claim C10: tokenization of the search-path value never yields an
empty component (a leading colon, trailing colon, or two adjacent
colons contribute nothing), so an empty PATH component is never
enumerated as a directory — in particular never as the current working
directory. -/
theorem empty_components_yield_nothing :
    (∀ s t, t ∈ tokenize s → t ≠ "") ∧
    (∀ (w : World) (d : String),
      Event.openDir d ∈ (apply_sandbox w).events → d ≠ "") := by
  constructor
  · intro s t h
    exact tokenize_tokens_ne_empty h
  · intro w d h
    obtain ⟨-, -, pe, -, -, dir, hdir, hin⟩ :=
      mem_events_enum h (fun b hb => Event.noConfusion hb)
        (fun m hm => Event.noConfusion hm)
        (fun hh => Event.noConfusion hh) (fun hh => Event.noConfusion hh)
    rcases mem_processDir hin with heq | ⟨entries, hent, name, hn, hpe⟩
    · cases heq
      exact tokenize_tokens_ne_empty hdir
    · exact absurd hpe not_mem_processEntry_openDir

/-- Witness for C10: a PATH value with leading, doubled and trailing
colons yields no empty token. -/
theorem empty_components_yield_nothing_witness :
    "" ∉ tokenize ":/a::/b:" :=
  fun h => empty_components_yield_nothing.1 ":/a::/b:" "" h rfl

end Sandboxer
